import Mathlib

/-!
# Activity tracker: shallow embedding of the persistence store and analytics

The repository ships two interchangeable persistence backends inside
`src/js/storage.js`:

* an asynchronous remote-document variant (the first `Storage` module in the
  file, lines 1–116), modelled here as `AsyncStore` — every operation reads the
  current collections, transforms them in memory and persists whole
  collections; the `await` suspension points carry no semantic content in the
  single-threaded setting, so each operation is embedded as a pure function on
  the store state;
* a synchronous localStorage variant (the second `Storage` module, lines
  117–480), modelled here as `SyncStore` — localStorage keys can be *absent*
  (`getItem` returns `null`), which matters because `getActions` seeds the four
  default actions exactly when its key is absent, so the collections are
  `Option (List _)` with `none` meaning "key absent".

Calendar dates (`YYYY-MM-DD` strings) are embedded as integer day indices: the
string order, `Date` parsing (UTC midnight) and day arithmetic used by the code
all factor through the monotone bijection between date strings and day
numbers.  `new Date(dateStr)` becomes `d * msPerDay` (milliseconds since
epoch).  `Date.now()` is an explicit `now : Int` parameter (milliseconds).

`HH:MM` time strings are embedded as pairs `(h, m) : Int × Int`; the code's
`parseInt` on well-formed fields yields exactly these components.

JavaScript `undefined` record fields are embedded as `Option` with `none`;
every read the code performs on such fields (`===` comparisons, truthiness
tests, `||` fallbacks) is translated accordingly.  A field access that throws
on `undefined` (`activity.startTime.split(':')`) is embedded in `Option` as a
failure (`none` = the function throws).
-/

namespace Tracker

/-- One logged activity record.  Field set: the identity/reference fields the
store manipulates plus the payload fields the analytics read
(`startTime`/`endTime` for work hours, `notes` as a representative
form-payload field).  `type` is the legacy discriminator of pre-migration
records.  `date` is the calendar day index for the `YYYY-MM-DD` string. -/
structure Activity where
  id : String
  actionId : Option String := none
  type : Option String := none
  date : Option Int := none
  timestamp : Option Int := none
  startTime : Option (Int × Int) := none
  endTime : Option (Int × Int) := none
  notes : Option String := none
deriving Repr, DecidableEq

/-- A user-defined action (habit category), as stored in the catalog. -/
structure Action where
  id : String
  name : String := ""
  type : String := ""
  category : Option String := none
  fields : List String := []
deriving Repr, DecidableEq

/-- A shallow patch for `updateActivity`: `none` means the key is absent from
the patch object, `some v` means the key is present with value `v` (for
optional activity fields the value is itself an `Option`, `some none` being a
present-but-`undefined` key, which JavaScript spread copies like any other). -/
structure ActivityPatch where
  id : Option String := none
  actionId : Option (Option String) := none
  type : Option (Option String) := none
  date : Option (Option Int) := none
  timestamp : Option (Option Int) := none
  startTime : Option (Option (Int × Int)) := none
  endTime : Option (Option (Int × Int)) := none
  notes : Option (Option String) := none
deriving Repr, DecidableEq

/-- A shallow patch for `updateAction`. -/
structure ActionPatch where
  id : Option String := none
  name : Option String := none
  type : Option String := none
  category : Option (Option String) := none
  fields : Option (List String) := none
deriving Repr, DecidableEq

/-- JavaScript object spread `{ ...a, ...p }` for activities: every key present
in the patch wins, every absent key keeps the original value. -/
def mergeActivity (a : Activity) (p : ActivityPatch) : Activity where
  id := p.id.getD a.id
  actionId := p.actionId.getD a.actionId
  type := p.type.getD a.type
  date := p.date.getD a.date
  timestamp := p.timestamp.getD a.timestamp
  startTime := p.startTime.getD a.startTime
  endTime := p.endTime.getD a.endTime
  notes := p.notes.getD a.notes

/-- JavaScript object spread `{ ...a, ...p }` for actions. -/
def mergeAction (a : Action) (p : ActionPatch) : Action where
  id := p.id.getD a.id
  name := p.name.getD a.name
  type := p.type.getD a.type
  category := p.category.getD a.category
  fields := p.fields.getD a.fields

/-- An import payload (`jsonData` / `data`): `none` components model a payload
that lacks the corresponding array. -/
structure Payload where
  activities : Option (List Activity) := none
  actions : Option (List Action) := none
deriving Repr, DecidableEq

/-! ## The synchronous localStorage backend (`storage.js` lines 117–480) -/

/-- State of the synchronous backend: one localStorage entry per collection,
`none` when the key is absent (`localStorage.getItem` returns `null`). -/
structure SyncStore where
  activities : Option (List Activity) := none
  actions : Option (List Action) := none
deriving Repr, DecidableEq

namespace SyncStore

/-- `saveActivities`: `localStorage.setItem(ACTIVITIES_STORAGE_KEY, ...)`. -/
def saveActivities (s : SyncStore) (l : List Activity) : SyncStore :=
  { s with activities := some l }

/-- `saveActions`: `localStorage.setItem(ACTIONS_STORAGE_KEY, ...)`. -/
def saveActions (s : SyncStore) (l : List Action) : SyncStore :=
  { s with actions := some l }

/-- `getActivities`: parse the stored entry, `[]` when the key is absent. -/
def getActivities (s : SyncStore) : List Activity :=
  s.activities.getD []

/-- The four default actions seeded by `getActions` on an empty backing
store. -/
def defaultActions : List Action :=
  [ { id := "exercise", name := "Exercise", type := "good",
      category := some "Physical",
      fields := ["exerciseType", "duration", "notes"] },
    { id := "diet-healthy", name := "Healthy Food", type := "good",
      category := some "Nutrition", fields := ["notes"] },
    { id := "diet-unhealthy", name := "Unhealthy Food", type := "bad",
      category := some "Nutrition", fields := ["notes"] },
    { id := "work", name := "Work Time", type := "neutral",
      category := some "Work", fields := ["startTime", "endTime"] } ]

/-- `getActions`: return the stored catalog; when the key is absent, seed the
four defaults, persist them (`saveActions`) and return them.  The returned
pair is (result, post-call store state). -/
def getActions (s : SyncStore) : List Action × SyncStore :=
  match s.actions with
  | some l => (l, s)
  | none => (defaultActions, s.saveActions defaultActions)

/-- `addActivity`: assign `id = Date.now().toString()` and
`timestamp = Date.now()` (the two consecutive `Date.now()` calls are modelled
as the same instant `now`), append, persist, return the stored record. -/
def addActivity (s : SyncStore) (draft : Activity) (now : Int) :
    SyncStore × Activity :=
  let a := { draft with id := toString now, timestamp := some now }
  (s.saveActivities (s.getActivities ++ [a]), a)

/-- `deleteActivity`: keep every activity whose id differs, persist. -/
def deleteActivity (s : SyncStore) (id : String) : SyncStore :=
  s.saveActivities (s.getActivities.filter (fun a => a.id ≠ id))

/-- `findIndex` + in-place assignment of `updateActivity`/`updateAction`,
expressed recursively: replace the first element matching the id with the
merged record, returning the new list and the merged record, `none` when no
element matches (`findIndex === -1`). -/
def updateFirstActivity (id : String) (p : ActivityPatch) :
    List Activity → Option (List Activity × Activity)
  | [] => none
  | a :: rest =>
      if a.id = id then
        let m := { mergeActivity a p with id := a.id, timestamp := a.timestamp }
        some (m :: rest, m)
      else
        (updateFirstActivity id p rest).map (fun x => (a :: x.1, x.2))

/-- `updateActivity`: merge the patch onto the first record whose id matches,
re-pinning `id` and the original `timestamp`; persist and return the merged
record, or return `null` (here `none`) leaving the store untouched when the
id is not found. -/
def updateActivity (s : SyncStore) (id : String) (p : ActivityPatch) :
    SyncStore × Option Activity :=
  match updateFirstActivity id p s.getActivities with
  | none => (s, none)
  | some (l, m) => (s.saveActivities l, some m)

/-- `addAction`: generate `id = 'action-' + Date.now().toString()` only when
the draft carries no id (`!action.id`, i.e. the empty string here), append to
the (possibly freshly seeded) catalog, persist. -/
def addAction (s : SyncStore) (draft : Action) (now : Int) :
    SyncStore × Action :=
  let res := s.getActions
  let a := if draft.id = "" then
      { draft with id := "action-" ++ toString now } else draft
  ((res.2).saveActions (res.1 ++ [a]), a)

/-- The first-match replacement inside `updateAction` (no id re-pinning: the
source assigns the plain spread `{ ...actions[index], ...updatedAction }`). -/
def updateFirstAction (id : String) (p : ActionPatch) :
    List Action → Option (List Action × Action)
  | [] => none
  | a :: rest =>
      if a.id = id then
        let m := mergeAction a p
        some (m :: rest, m)
      else
        (updateFirstAction id p rest).map (fun x => (a :: x.1, x.2))

/-- `updateAction`: shallow-merge onto the first matching catalog entry,
persist, return it; `none` when the id is not found. -/
def updateAction (s : SyncStore) (id : String) (p : ActionPatch) :
    SyncStore × Option Action :=
  let res := s.getActions
  match updateFirstAction id p res.1 with
  | none => (res.2, none)
  | some (l, m) => ((res.2).saveActions l, some m)

/-- `deleteAction`: refuse (return `false`, no mutation) when some activity
references the id by `actionId` or by legacy `type`; otherwise filter it out
of the catalog, persist, return `true`. -/
def deleteAction (s : SyncStore) (id : String) : SyncStore × Bool :=
  let activities := s.getActivities
  let hasActivities :=
    activities.any (fun a => a.actionId = some id || a.type = some id)
  if hasActivities then (s, false)
  else
    let res := s.getActions
    ((res.2).saveActions (res.1.filter (fun a => a.id ≠ id)), true)

/-- `importData(data, replace)`: validation rejects a missing payload or a
payload lacking either array (`!data || !data.activities || !data.actions`),
returning `false` with no mutation.  *replace* overwrites both collections;
*merge* appends only incoming records whose id is not already present in the
corresponding local collection. -/
def importData (s : SyncStore) (data : Option Payload) (replace : Bool) :
    SyncStore × Bool :=
  match data with
  | none => (s, false)
  | some d =>
      match d.activities, d.actions with
      | some pActs, some pActions =>
          if replace then
            ((s.saveActivities pActs).saveActions pActions, true)
          else
            let existingActivities := s.getActivities
            let res := s.getActions
            let existingActivityIds := existingActivities.map (fun a => a.id)
            let newActivities :=
              pActs.filter (fun a => ¬ a.id ∈ existingActivityIds)
            let existingActionIds := res.1.map (fun a => a.id)
            let newActions :=
              pActions.filter (fun a => ¬ a.id ∈ existingActionIds)
            (((res.2).saveActivities (existingActivities ++ newActivities)).saveActions
              (res.1 ++ newActions), true)
      | _, _ => (s, false)

/-- `clearAllData`: `localStorage.removeItem(ACTIVITIES_STORAGE_KEY)` — it
removes only the activities key; the actions key is not touched. -/
def clearAllData (s : SyncStore) : SyncStore :=
  { s with activities := none }

end SyncStore

/-! ## The asynchronous remote-document backend (`storage.js` lines 1–116)

The authenticated path keeps both collections in a single per-user document;
an absent document field reads back as `[]` (`snap.data().activities || []`)
and `persist` writes whole collections with `merge: true`, so the state is
just the two lists.  (The unauthenticated fallback reads the localStorage
cache the same way — `JSON.parse(...) || []` — and likewise never seeds
defaults.) -/

structure AsyncStore where
  activities : List Activity := []
  actions : List Action := []
deriving Repr, DecidableEq

namespace AsyncStore

/-- Async `getActivities`. -/
def getActivities (s : AsyncStore) : List Activity := s.activities

/-- Async `getActions`: no seeding of defaults — an empty store reads `[]`. -/
def getActions (s : AsyncStore) : List Action := s.actions

/-- Async `addActivity` (both `Date.now()` calls modelled as `now`). -/
def addActivity (s : AsyncStore) (draft : Activity) (now : Int) :
    AsyncStore × Activity :=
  let a := { draft with id := toString now, timestamp := some now }
  ({ s with activities := s.activities ++ [a] }, a)

/-- Async `deleteActivity`. -/
def deleteActivity (s : AsyncStore) (id : String) : AsyncStore :=
  { s with activities := s.activities.filter (fun a => a.id ≠ id) }

/-- Async `addAction`: unconditionally assigns `id = Date.now().toString()`. -/
def addAction (s : AsyncStore) (draft : Action) (now : Int) :
    AsyncStore × Action :=
  let a := { draft with id := toString now }
  ({ s with actions := s.actions ++ [a] }, a)

/-- Async `deleteAction`: unconditional filter-and-persist — no referential
check against the activities and no boolean result. -/
def deleteAction (s : AsyncStore) (id : String) : AsyncStore :=
  { s with actions := s.actions.filter (fun a => a.id ≠ id) }

/-- The first-match replacement inside the async `updateActivity`: the source
assigns `{ ...activities[index], ...updatedData, id }` — only `id` is
re-pinned, the original `timestamp` is not. -/
def updateFirstActivityAsync (id : String) (p : ActivityPatch) :
    List Activity → Option (List Activity × Activity)
  | [] => none
  | a :: rest =>
      if a.id = id then
        let m := { mergeActivity a p with id := a.id }
        some (m :: rest, m)
      else
        (updateFirstActivityAsync id p rest).map (fun x => (a :: x.1, x.2))

/-- Async `updateActivity`: merge re-pinning only `id`, persist when found. -/
def updateActivity (s : AsyncStore) (id : String) (p : ActivityPatch) :
    AsyncStore :=
  match updateFirstActivityAsync id p s.activities with
  | none => s
  | some (l, _) => { s with activities := l }

/-- Async `importData(jsonData, options)`: no validation.  Spreading a missing
`jsonData.activities` throws a `TypeError` (embedded as `none`); a missing
`jsonData.actions` silently falls back to the current catalog
(`jsonData.actions || currentActions`); activities are appended with **no**
id dedup.  The `merge` flag selects whether the current collections are read
first (`true`, the default) or taken empty. -/
def importData (s : AsyncStore) (jsonData : Payload) (merge : Bool) :
    Option (AsyncStore × Bool) :=
  let currentActivities := if merge then s.activities else []
  let currentActions := if merge then s.actions else []
  match jsonData.activities with
  | none => none
  | some pActs =>
      some ({ activities := currentActivities ++ pActs,
              actions := jsonData.actions.getD currentActions }, true)

/-- Async `clearAllData`: persists `{ activities: [], actions: [] }`. -/
def clearAllData (_ : AsyncStore) : AsyncStore :=
  { activities := [], actions := [] }

end AsyncStore

/-! ## The analytics module (`src/js/ui.js` lines 1611–1823)

All functions read the current activity snapshot (`Storage.getActivities()`),
passed here explicitly.  "Today" is likewise an explicit parameter: the code
derives it from `new Date()`; we model a fixed-offset locale without daylight
saving, with the UTC offset 0 where an offset matters (stated per claim).
`new Date(dateStr)` for a `YYYY-MM-DD` string is UTC midnight of that day,
i.e. `d * msPerDay` for day index `d`. -/

namespace Analytics

/-- `1000 * 60 * 60 * 24`. -/
def msPerDay : Int := 86400000

/-- The match filter of `calculateActionStreak`:
`activity.actionId === actionId || (activity.type === 'exercise' && actionId === 'exercise')`. -/
def matchesStreak (actionId : String) (a : Activity) : Bool :=
  a.actionId = some actionId || (a.type = some "exercise" && actionId = "exercise")

/-- The counting loop of `calculateActionStreak`, run on the date list in
descending order (the loop walks `actionDates` from its last element down):
`streak` starts at 1 and increments while each consecutive pair of dates
differs by exactly one day, stopping at the first other gap.  (`Math.ceil` of
an exact integer ratio is that integer, so `diffDays` is just the difference
of day indices.) -/
def descRun : List Int → Nat
  | [] => 0
  | [_] => 1
  | a :: b :: rest => if a - b = 1 then descRun (b :: rest) + 1 else 1

/-- The dates fed into the `Set` of `calculateActionStreak`: matching
records, keep those carrying a date (`.filter(activity => activity.date)`),
read the dates (with duplicates). -/
def matchDates (activities : List Activity) (actionId : String) : List Int :=
  (activities.filter (matchesStreak actionId)).filterMap (fun a => a.date)

/-- The `[...new Set(...)].sort()` of `calculateActionStreak`: collect the
distinct matching dates and sort ascending.  (`List.dedup` keeps one copy
per value; after sorting, the result is the unique ascending enumeration of
the distinct matching dates, exactly what the JS `Set` + lexicographic sort
of `YYYY-MM-DD` strings produces.) -/
def actionDatesOf (activities : List Activity) (actionId : String) : List Int :=
  List.insertionSort (· ≤ ·) ((matchDates activities actionId).dedup)

/-- `calculateActionStreak(actionId)`, with the activity snapshot and today's
day index explicit.  Mirrors the source: empty snapshot → 0; no matching
dated activity → 0; if today is not among the matching dates and the latest
matching date is not yesterday → 0; otherwise count the run of one-day steps
backward from the latest date. -/
def calculateActionStreak (activities : List Activity) (today : Int)
    (actionId : String) : Nat :=
  if activities.isEmpty then 0 else
  let actionDates := actionDatesOf activities actionId
  if actionDates.isEmpty then 0
  else if ¬ today ∈ actionDates ∧ actionDates.getLast? ≠ some (today - 1) then 0
  else descRun actionDates.reverse

/-- The comparator `(a, b) => b.timestamp - a.timestamp` of
`calculateDaysSinceLastOccurrence`, as the induced "keep `a` before `b`"
boolean (comparator value ≤ 0).  When a timestamp is missing the JS
subtraction is `NaN`, which `Array.prototype.sort` treats as 0 (equal), so
the stable sort keeps the original order — here: `true` both ways. -/
def tsCompareLe (a b : Activity) : Bool :=
  match a.timestamp, b.timestamp with
  | some x, some y => decide (y ≤ x)
  | _, _ => true

/-- `calculateDaysSinceLastOccurrence(actionId)`: filter by `actionId` (the
legacy diet fallback is commented out in the source), keep dated records,
stable-sort by timestamp descending, and return
`Math.floor((todayMidnight - lastDate) / msPerDay)` for the first record's
date.  `todayMidnight` is today's local midnight in ms
(`new Date().setHours(0,0,0,0)`); `Math.floor` is floor division (`fdiv`).
The `getD 0` default is never taken: the head of the sorted list exists and
carries a date by the two filters. -/
def calculateDaysSinceLastOccurrence (activities : List Activity)
    (todayMidnight : Int) (actionId : String) : Int :=
  let relevantActivities :=
    (activities.filter (fun a => a.actionId = some actionId)).filter
      (fun a => a.date.isSome)
  if relevantActivities.isEmpty then 0
  else
    match (relevantActivities.mergeSort tsCompareLe).head? with
    | none => 0
    | some a0 => (todayMidnight - (a0.date.getD 0) * msPerDay).fdiv msPerDay

/-- The work filter of `calculateAverageWorkHours`:
`activity.actionId === 'work' || activity.type === 'work'`. -/
def isWorkActivity (a : Activity) : Bool :=
  a.actionId = some "work" || a.type = some "work"

/-- Milliseconds since local midnight of `setHours(h, m, 0)` on a fixed
date. -/
def setHoursMs (h m : Int) : Int := h * 3600000 + m * 60000

/-- The per-activity body of `calculateAverageWorkHours`: elapsed ms between
`startTime` and `endTime`, adding a day when the end is numerically earlier
than the start (crossing midnight).  Accessing `startTime.split(':')` or
`endTime.split(':')` on a record lacking the field throws a `TypeError`:
embedded as `none`. -/
def activityWorkMs (a : Activity) : Option Int := do
  let s ← a.startTime
  let e ← a.endTime
  let startMs := setHoursMs s.1 s.2
  let endMs := setHoursMs e.1 e.2
  let endMs := if endMs < startMs then endMs + msPerDay else endMs
  return endMs - startMs

/-- The `forEach` accumulation of `calculateAverageWorkHours`: total elapsed
work milliseconds, failing (the loop throws) at the first record lacking a
time field. -/
def sumWorkMs : List Activity → Option Int
  | [] => some 0
  | a :: rest => do
      let h ← activityWorkMs a
      let t ← sumWorkMs rest
      return h + t

/-- `calculateAverageWorkHours()`: 0 when no activity matches the work
filter; otherwise the mean over all work activities of their elapsed hours
(the source accumulates `diff / 3600000` per activity and divides by the
count, which equals dividing the summed ms by 3600000 once).  The source
finally formats the mean with `.toFixed(1)`; we model the numeric mean being
formatted.  `none` = the computation throws (some work record lacks a
time field). -/
def calculateAverageWorkHours (activities : List Activity) : Option ℚ :=
  let workActivities := activities.filter isWorkActivity
  if workActivities.isEmpty then some 0
  else do
    let totalMs ← sumWorkMs workActivities
    let totalHours : ℚ := (totalMs : ℚ) / 3600000
    return totalHours / workActivities.length

/-- The grouping key of `getActivityCountsLast30Days`:
`activity.actionId || activity.type`.  When both are absent the JS object
key is the coerced string `"undefined"`. -/
def countsKey (a : Activity) : String :=
  a.actionId.getD (a.type.getD "undefined")

/-- The window filter of `getActivityCountsLast30Days`: keep a dated record
when `thirtyDaysAgo <= new Date(activity.date) <= now`, where
`thirtyDaysAgo` is the current instant moved back 30 calendar days keeping
the time of day (`setDate(getDate() - 30)`), i.e. `now - 30 * msPerDay` in a
fixed-offset locale, and `new Date(activity.date)` is UTC midnight
`d * msPerDay`. -/
def inLast30Window (nowMs : Int) (a : Activity) : Bool :=
  match a.date with
  | none => false
  | some d =>
      decide (nowMs - 30 * msPerDay ≤ d * msPerDay) && decide (d * msPerDay ≤ nowMs)

/-- `getActivityCountsLast30Days()`: the object built by the counting loop,
read as the mapping it denotes — for each key `k`, the number of recent
(window-passing) activities grouped under `k`; a key appears in the object
iff its count is positive. -/
def getActivityCountsLast30Days (activities : List Activity) (nowMs : Int)
    (k : String) : Nat :=
  ((activities.filter (inLast30Window nowMs)).filter
    (fun a => countsKey a = k)).length

end Analytics

/-! ## Claim C7: `clearAllData` -/

/-- C7 counterexample: in the synchronous backend, `clearAllData` removes only
the activities key, so the Action collection does **not** read back empty —
here it still reads the one stored action (and reading an *absent* actions
key would even re-seed the four defaults, never the empty catalog). -/
theorem clearAllData_sync_keeps_actions :
    (SyncStore.clearAllData
        (SyncStore.mk (some [{ id := "x" }]) (some [{ id := "a" }]))).getActions.1
      = [{ id := "a" }] ∧
    ([{ id := "a" }] : List Action) ≠ [] := by
  constructor
  · rfl
  · simp

/-- C7 (amended): after `clearAllData()` both collections read back empty in
the **asynchronous** backend; in the synchronous backend only the Activity
collection reads back empty — the stored actions entry is left unchanged. -/
theorem clearAllData_spec :
    (∀ s : AsyncStore,
      s.clearAllData.getActivities = [] ∧ s.clearAllData.getActions = []) ∧
    (∀ s : SyncStore,
      s.clearAllData.getActivities = [] ∧ s.clearAllData.actions = s.actions) :=
  ⟨fun _ => ⟨rfl, rfl⟩, fun _ => ⟨rfl, rfl⟩⟩

/-! ## Claim C6: `getActions` default seeding -/

/-- C6 counterexample: the asynchronous backend never seeds — the first
`getActions` on an empty backing store returns the empty catalog, not four
default Actions. -/
theorem getActions_async_no_seed :
    (AsyncStore.mk [] []).getActions = [] ∧
    (AsyncStore.mk [] []).getActions.length ≠ 4 := by
  exact ⟨rfl, by simp [AsyncStore.getActions]⟩

/-- C6 (amended): in the **synchronous** backend, the first `getActions` call
on an empty backing store (absent actions key) seeds, persists and returns
exactly the four default Actions — Exercise (good), Healthy Food (good),
Unhealthy Food (bad), Work Time (neutral) — and any call on a store whose
actions entry is present returns the persisted catalog with no change.  The
asynchronous backend returns `[]` on an empty store and never seeds. -/
theorem getActions_seeds_defaults (s : SyncStore) (h : s.actions = none) :
    s.getActions
      = (SyncStore.defaultActions, s.saveActions SyncStore.defaultActions) ∧
    SyncStore.defaultActions.map (fun a => (a.name, a.type))
      = [("Exercise", "good"), ("Healthy Food", "good"),
         ("Unhealthy Food", "bad"), ("Work Time", "neutral")] ∧
    SyncStore.defaultActions.length = 4 ∧
    ∀ (s' : SyncStore) (l : List Action), s'.actions = some l →
      s'.getActions = (l, s') := by
  refine ⟨?_, by decide, by decide, ?_⟩
  · unfold SyncStore.getActions
    rw [h]
  · intro s' l h'
    unfold SyncStore.getActions
    rw [h']

/-- Witness for C6 at the empty store. -/
theorem getActions_seeds_defaults_witness :
    (SyncStore.mk none none).getActions
      = (SyncStore.defaultActions,
         (SyncStore.mk none none).saveActions SyncStore.defaultActions) :=
  (getActions_seeds_defaults ⟨none, none⟩ rfl).1

/-! ## Claim C4: `importData` validation -/

/-- C4 counterexample: the asynchronous backend does no validation — importing
a payload lacking the actions array into the empty store **applies** the
activities and returns `true`, instead of returning `false` with no
mutation. -/
theorem importData_async_no_validation :
    AsyncStore.importData (AsyncStore.mk [] [])
        (Payload.mk (some [{ id := "z" }]) none) true
      = some (AsyncStore.mk [{ id := "z" }] [], true) ∧
    (AsyncStore.mk [{ id := "z" }] []) ≠ AsyncStore.mk [] [] := by
  constructor
  · rfl
  · simp [AsyncStore.mk.injEq]

/-- C4 (amended): in the **synchronous** backend, `importData` returns `false`
and leaves both stored collections unchanged whenever the payload is missing
or lacks either sequence.  In the asynchronous backend a payload lacking the
activities sequence throws (no mutation), while a payload lacking only the
actions sequence is partially applied with result `true`. -/
theorem importData_validation (s : SyncStore) (p : Payload) (replace : Bool)
    (h : p.activities = none ∨ p.actions = none) :
    s.importData (some p) replace = (s, false) ∧
    s.importData none replace = (s, false) ∧
    (∀ (s' : AsyncStore) (p' : Payload) (m : Bool), p'.activities = none →
      s'.importData p' m = none) := by
  refine ⟨?_, rfl, ?_⟩
  · obtain ⟨pa, pc⟩ := p
    rcases h with h | h
    · subst h; rfl
    · subst h; cases pa <;> rfl
  · intro s' p' m h'
    unfold AsyncStore.importData
    rw [h']

/-- Witness for C4 at a concrete store and payload lacking activities. -/
theorem importData_validation_witness :
    SyncStore.importData (SyncStore.mk (some []) (some []))
        (some (Payload.mk none (some []))) true
      = (SyncStore.mk (some []) (some []), false) :=
  (importData_validation _ _ true (Or.inl rfl)).1

/-! ## Claim C1: `deleteAction` referential integrity -/

/-- C1 counterexample: the asynchronous backend's `deleteAction` performs no
referential check — with activity `x` referencing action `a` by `actionId`,
deleting `a` still removes it (and the operation yields no boolean at
all). -/
theorem deleteAction_async_ignores_refs :
    (AsyncStore.deleteAction
        (AsyncStore.mk [{ id := "x", actionId := some "a" }] [{ id := "a" }])
        "a").actions = [] ∧
    ([{ id := "a" }] : List Action) ≠ [] := by
  constructor
  · rfl
  · simp

/-- C1 (amended): in the **synchronous** backend, `deleteAction(id)` returns
`false` and leaves the whole store unchanged whenever some Activity
references `id` by `actionId` or (legacy records) by `type`; otherwise it
returns `true`, leaves the Activity collection unchanged, and persists the
catalog with that Action removed.  The asynchronous backend removes the
Action unconditionally and returns no boolean. -/
theorem deleteAction_sync_spec (s : SyncStore) (id : String) :
    ((∃ a ∈ s.getActivities, a.actionId = some id ∨ a.type = some id) →
        s.deleteAction id = (s, false)) ∧
    ((∀ a ∈ s.getActivities, a.actionId ≠ some id ∧ a.type ≠ some id) →
        (s.deleteAction id).2 = true ∧
        (s.deleteAction id).1.getActivities = s.getActivities ∧
        (s.deleteAction id).1.actions
          = some (s.getActions.1.filter (fun a => a.id ≠ id))) := by
  have hany : (s.getActivities.any
        fun a => a.actionId = some id || a.type = some id) = true
      ↔ ∃ a ∈ s.getActivities, a.actionId = some id ∨ a.type = some id := by
    simp [List.any_eq_true]
  constructor
  · intro h
    unfold SyncStore.deleteAction
    rw [if_pos (hany.mpr h)]
  · intro h
    have hfalse : ¬ (s.getActivities.any
        fun a => a.actionId = some id || a.type = some id) = true := by
      rw [hany]
      rintro ⟨a, ha, hor⟩
      rcases hor with h' | h'
      · exact (h a ha).1 h'
      · exact (h a ha).2 h'
    unfold SyncStore.deleteAction
    rw [if_neg hfalse]
    refine ⟨rfl, ?_, rfl⟩
    cases hact : s.actions <;>
      simp [SyncStore.getActions, SyncStore.saveActions, SyncStore.getActivities, hact]

/-- Witness for C1: the refusal branch at a concrete store whose activity
references the action. -/
theorem deleteAction_sync_spec_witness :
    SyncStore.deleteAction
        (SyncStore.mk (some [{ id := "x", actionId := some "a" }])
          (some [{ id := "a" }])) "a"
      = (SyncStore.mk (some [{ id := "x", actionId := some "a" }])
          (some [{ id := "a" }]), false) :=
  (deleteAction_sync_spec _ "a").1
    ⟨{ id := "x", actionId := some "a" }, by decide, Or.inl rfl⟩

/-! ## Claim C2: `updateActivity` pins id and timestamp -/

/-- C2 counterexample: the asynchronous backend's `updateActivity` re-pins
only `id` — a patch supplying a `timestamp` **changes** the stored
timestamp (here from 10 to 99). -/
theorem updateActivity_async_changes_timestamp :
    (AsyncStore.updateActivity
        (AsyncStore.mk [{ id := "1", timestamp := some 10 }] []) "1"
        { timestamp := some (some 99) }).activities
      = [{ id := "1", timestamp := some 99 }] ∧
    (some (99 : Int)) ≠ some (10 : Int) := by
  constructor
  · rfl
  · simp

/-- `updateActivity`'s `findIndex` + assignment, computed: when the prefix
contains no record with the id and `orig` is the first match, the merged
record replaces `orig` in place. -/
theorem updateFirstActivity_eq (id : String) (p : ActivityPatch)
    (pre post : List Activity) (orig : Activity)
    (hpre : ∀ a ∈ pre, a.id ≠ id) (hid : orig.id = id) :
    SyncStore.updateFirstActivity id p (pre ++ orig :: post)
      = some
          (pre ++ { mergeActivity orig p with
                      id := orig.id, timestamp := orig.timestamp } :: post,
           { mergeActivity orig p with
               id := orig.id, timestamp := orig.timestamp }) := by
  induction pre with
  | nil => simp [SyncStore.updateFirstActivity, hid]
  | cons a rest ih =>
      have ha : ¬ a.id = id := hpre a (List.mem_cons_self a rest)
      have ih' := ih (fun b hb => hpre b (List.mem_cons_of_mem a hb))
      simp only [List.cons_append, SyncStore.updateFirstActivity, ha,
        if_false, List.append_eq, ih', Option.map_some']

/-- C2 (amended): in the **synchronous** backend, `updateActivity(id, patch)`
stores (at the position of the first record carrying `id`) a record whose
`id` and `timestamp` equal the original's regardless of what the patch
supplies, with every other field shallow-merged, patch winning; the
asynchronous backend re-pins only `id`, so a patch *can* change the stored
timestamp. -/
theorem updateActivity_pins (s : SyncStore) (id : String) (p : ActivityPatch)
    (pre post : List Activity) (orig : Activity)
    (hsplit : s.getActivities = pre ++ orig :: post)
    (hpre : ∀ a ∈ pre, a.id ≠ id) (hid : orig.id = id) :
    ∃ m : Activity,
      s.updateActivity id p = (s.saveActivities (pre ++ m :: post), some m) ∧
      m.id = orig.id ∧ m.timestamp = orig.timestamp ∧
      m.actionId = p.actionId.getD orig.actionId ∧
      m.type = p.type.getD orig.type ∧
      m.date = p.date.getD orig.date ∧
      m.startTime = p.startTime.getD orig.startTime ∧
      m.endTime = p.endTime.getD orig.endTime ∧
      m.notes = p.notes.getD orig.notes := by
  refine ⟨{ mergeActivity orig p with
              id := orig.id, timestamp := orig.timestamp },
    ?_, rfl, rfl, rfl, rfl, rfl, rfl, rfl, rfl⟩
  unfold SyncStore.updateActivity
  rw [hsplit, updateFirstActivity_eq id p pre post orig hpre hid]

/-- Witness for C2: a patch supplying a different id, timestamp and notes at
a concrete one-record store — the stored record keeps id "1" and
timestamp 10 while notes change. -/
theorem updateActivity_pins_witness :
    ∃ m : Activity,
      SyncStore.updateActivity
          (SyncStore.mk
            (some [{ id := "1", timestamp := some 10, notes := some "old" }])
            none) "1"
          { id := some "zzz", timestamp := some (some 99),
            notes := some (some "new") }
        = ((SyncStore.mk
              (some [{ id := "1", timestamp := some 10, notes := some "old" }])
              none).saveActivities ([] ++ m :: []), some m) ∧
      m.id = "1" ∧ m.timestamp = some 10 ∧
      m.actionId = none ∧ m.type = none ∧ m.date = none ∧
      m.startTime = none ∧ m.endTime = none ∧ m.notes = some "new" :=
  updateActivity_pins _ "1" _ [] []
    { id := "1", timestamp := some 10, notes := some "old" }
    rfl (by simp) rfl

/-! ## Claim C3: merge-mode import -/

/-- Computed form of a well-formed merge-mode import in the synchronous
backend: the store becomes the old collections with the not-already-present
incoming records appended, and the call reports `true`. -/
theorem importData_merge_eq (s : SyncStore) (pActs : List Activity)
    (pActions : List Action) :
    s.importData (some ⟨some pActs, some pActions⟩) false
      = (SyncStore.mk
          (some (s.getActivities
            ++ pActs.filter
              (fun a => ¬ a.id ∈ s.getActivities.map (fun b => b.id))))
          (some (s.getActions.1
            ++ pActions.filter
              (fun a => ¬ a.id ∈ s.getActions.1.map (fun b => b.id)))),
         true) := by
  cases hact : s.actions <;>
    simp [SyncStore.importData, SyncStore.getActions, hact,
      SyncStore.saveActivities, SyncStore.saveActions, SyncStore.getActivities]

/-- C3 counterexample: the asynchronous backend's merge import performs no
id dedup — importing the payload `{activities: [z], actions: []}` twice
appends a duplicate record, so two merge imports differ from one. -/
theorem importData_async_merge_duplicates :
    AsyncStore.importData (AsyncStore.mk [] [])
        (Payload.mk (some [{ id := "z" }]) (some [])) true
      = some (AsyncStore.mk [{ id := "z" }] [], true) ∧
    AsyncStore.importData (AsyncStore.mk [{ id := "z" }] [])
        (Payload.mk (some [{ id := "z" }]) (some [])) true
      = some (AsyncStore.mk [{ id := "z" }, { id := "z" }] [], true) ∧
    ([{ id := "z" }, { id := "z" }] : List Activity) ≠ [{ id := "z" }] := by
  refine ⟨rfl, rfl, by simp⟩

/-- C3 (amended): in the **synchronous** backend, merge-mode import appends
only those incoming records whose id does not already exist in the
corresponding local collection (existing record wins on collision), returns
`true`, and importing the same well-formed payload twice yields exactly the
state of importing it once.  The asynchronous backend appends all incoming
activities without dedup (and replaces the catalog wholesale), so there the
claim fails. -/
theorem importData_merge_spec (s : SyncStore) (p : Payload)
    (pActs : List Activity) (pActions : List Action)
    (ha : p.activities = some pActs) (hc : p.actions = some pActions) :
    (s.importData (some p) false).2 = true ∧
    (s.importData (some p) false).1.getActivities
      = s.getActivities
        ++ pActs.filter
          (fun a => ¬ a.id ∈ s.getActivities.map (fun b => b.id)) ∧
    (s.importData (some p) false).1.actions
      = some (s.getActions.1
        ++ pActions.filter
          (fun a => ¬ a.id ∈ s.getActions.1.map (fun b => b.id))) ∧
    (s.importData (some p) false).1.importData (some p) false
      = s.importData (some p) false := by
  have hp : p = ⟨some pActs, some pActions⟩ := by
    obtain ⟨pa, pc⟩ := p
    simp only [Payload.mk.injEq]
    exact ⟨ha, hc⟩
  subst hp
  set newA := pActs.filter
    (fun a => ¬ a.id ∈ s.getActivities.map (fun b => b.id)) with hnewA
  set newC := pActions.filter
    (fun a => ¬ a.id ∈ s.getActions.1.map (fun b => b.id)) with hnewC
  set A1 := s.getActivities ++ newA with hA1
  set C1 := s.getActions.1 ++ newC with hC1
  have h1 := importData_merge_eq s pActs pActions
  rw [← hnewA, ← hnewC, ← hA1, ← hC1] at h1
  refine ⟨by rw [h1], by rw [h1]; exact rfl, by rw [h1], ?_⟩
  rw [h1]
  have h2 := importData_merge_eq (SyncStore.mk (some A1) (some C1))
    pActs pActions
  have e1 : (SyncStore.mk (some A1) (some C1)).getActivities = A1 := rfl
  have e2 : (SyncStore.mk (some A1) (some C1)).getActions.1 = C1 := rfl
  rw [e1, e2] at h2
  have hq1 : pActs.filter (fun a => ¬ a.id ∈ A1.map (fun b => b.id)) = [] := by
    rw [List.filter_eq_nil_iff]
    intro a haIn
    simp only [decide_eq_true_eq, not_not]
    rw [hA1, List.map_append]
    by_cases hmem : a.id ∈ s.getActivities.map (fun b => b.id)
    · exact List.mem_append_left _ hmem
    · refine List.mem_append_right _ ?_
      rw [hnewA]
      exact List.mem_map_of_mem _
        (List.mem_filter.mpr ⟨haIn, by simpa using hmem⟩)
  have hq2 : pActions.filter (fun a => ¬ a.id ∈ C1.map (fun b => b.id)) = [] := by
    rw [List.filter_eq_nil_iff]
    intro a haIn
    simp only [decide_eq_true_eq, not_not]
    rw [hC1, List.map_append]
    by_cases hmem : a.id ∈ s.getActions.1.map (fun b => b.id)
    · exact List.mem_append_left _ hmem
    · refine List.mem_append_right _ ?_
      rw [hnewC]
      exact List.mem_map_of_mem _
        (List.mem_filter.mpr ⟨haIn, by simpa using hmem⟩)
  rw [hq1, hq2, List.append_nil, List.append_nil] at h2
  exact h2

/-- Witness for C3 at a concrete store and payload (the incoming record with
the already-present id "z" is discarded, the fresh "w" is appended). -/
theorem importData_merge_spec_witness :
    ((SyncStore.mk (some [{ id := "z" }]) (some [])).importData
        (some ⟨some [{ id := "z" }, { id := "w" }], some []⟩) false).1.importData
        (some ⟨some [{ id := "z" }, { id := "w" }], some []⟩) false
      = (SyncStore.mk (some [{ id := "z" }]) (some [])).importData
          (some ⟨some [{ id := "z" }, { id := "w" }], some []⟩) false :=
  (importData_merge_spec (SyncStore.mk (some [{ id := "z" }]) (some []))
    ⟨some [{ id := "z" }, { id := "w" }], some []⟩
    [{ id := "z" }, { id := "w" }] [] rfl rfl).2.2.2

/-! ## Claim C9: uniqueness of identifiers -/

/-- Appending one record whose id is fresh preserves distinctness of the
mapped ids. -/
theorem nodup_map_concat {α : Type} (f : α → String) (l : List α) (a : α)
    (h : (l.map f).Nodup) (hf : ¬ f a ∈ l.map f) :
    ((l ++ [a]).map f).Nodup := by
  rw [List.map_append, List.nodup_append_comm, List.map_singleton,
    List.singleton_append, List.nodup_cons]
  exact ⟨hf, h⟩

/-- Filtering preserves distinctness of the mapped ids. -/
theorem nodup_map_filter {α : Type} (f : α → String) (p : α → Bool)
    (l : List α) (h : (l.map f).Nodup) : ((l.filter p).map f).Nodup :=
  h.sublist ((List.filter_sublist l).map f)

/-- `updateActivity`'s first-match replacement never changes the id
sequence: the merged record re-pins the original id in place. -/
theorem updateFirstActivity_ids (id : String) (p : ActivityPatch)
    (l : List Activity) :
    ∀ (l' : List Activity) (m : Activity),
      SyncStore.updateFirstActivity id p l = some (l', m) →
      l'.map (fun a => a.id) = l.map (fun a => a.id) := by
  induction l with
  | nil => intro l' m h; simp [SyncStore.updateFirstActivity] at h
  | cons a rest ih =>
      intro l' m h
      by_cases ha : a.id = id
      · simp only [SyncStore.updateFirstActivity, ha, if_true,
          Option.some.injEq, Prod.mk.injEq] at h
        obtain ⟨hl, _⟩ := h
        subst hl
        simp [ha]
      · simp only [SyncStore.updateFirstActivity, ha, if_false] at h
        cases hr : SyncStore.updateFirstActivity id p rest with
        | none => rw [hr] at h; simp at h
        | some x =>
            obtain ⟨l₀, m₀⟩ := x
            rw [hr] at h
            simp only [Option.map_some', Option.some.injEq] at h
            injection h with h1 h2
            subst h1
            simp [ih l₀ m₀ hr]

/-- `updateAction`'s first-match replacement with a patch not supplying an
id never changes the id sequence. -/
theorem updateFirstAction_ids (id : String) (p : ActionPatch)
    (hp : p.id = none) (l : List Action) :
    ∀ (l' : List Action) (m : Action),
      SyncStore.updateFirstAction id p l = some (l', m) →
      l'.map (fun a => a.id) = l.map (fun a => a.id) := by
  induction l with
  | nil => intro l' m h; simp [SyncStore.updateFirstAction] at h
  | cons a rest ih =>
      intro l' m h
      by_cases ha : a.id = id
      · simp only [SyncStore.updateFirstAction, ha, if_true,
          Option.some.injEq, Prod.mk.injEq] at h
        obtain ⟨hl, _⟩ := h
        subst hl
        simp [mergeAction, hp, ha]
      · simp only [SyncStore.updateFirstAction, ha, if_false] at h
        cases hr : SyncStore.updateFirstAction id p rest with
        | none => rw [hr] at h; simp at h
        | some x =>
            obtain ⟨l₀, m₀⟩ := x
            rw [hr] at h
            simp only [Option.map_some', Option.some.injEq] at h
            injection h with h1 h2
            subst h1
            simp [ih l₀ m₀ hr]

/-- Re-reading the catalog after `getActions` (which may have seeded)
returns the same catalog with no further state change. -/
theorem getActions_idem (s : SyncStore) :
    (s.getActions.2).getActions = (s.getActions.1, s.getActions.2) := by
  cases h : s.actions <;>
    simp [SyncStore.getActions, SyncStore.saveActions, h]

/-- C9 counterexample: `addActivity` derives the new id from the clock
(`Date.now().toString()`) with **no** check against the collection — adding
at an instant whose string already occurs as an id (here both are "5")
produces two activities with the same id. -/
theorem addActivity_id_collision :
    ((SyncStore.addActivity (SyncStore.mk (some [{ id := "5" }]) (some []))
        { id := "" } 5).1).getActivities.map (fun a => a.id) = ["5", "5"] ∧
    ¬ (["5", "5"] : List String).Nodup := by
  exact ⟨rfl, by decide⟩

/-- C9 (amended): starting from a synchronous store with pairwise-distinct
Action ids and Activity ids, every operation preserves the distinctness,
**provided** the id assigned by `addActivity`/`addAction` (the clock string,
prefixed for actions, or the draft's own id when supplied) is not already
present, the patch given to `updateAction` does not supply an id, and merge
imports carry pairwise-distinct incoming ids; without these provisos the
code can duplicate ids, since the generated id is never checked against the
collection. -/
theorem uniqueIds_preserved (s : SyncStore)
    (hA : (s.getActivities.map (fun a => a.id)).Nodup)
    (hC : (s.getActions.1.map (fun a => a.id)).Nodup) :
    (∀ (draft : Activity) (now : Int),
        ¬ toString now ∈ s.getActivities.map (fun a => a.id) →
        ((s.addActivity draft now).1.getActivities.map (fun a => a.id)).Nodup) ∧
    (∀ (draft : Action) (now : Int),
        ¬ (if draft.id = "" then "action-" ++ toString now else draft.id)
            ∈ s.getActions.1.map (fun a => a.id) →
        ((s.addAction draft now).1.getActions.1.map (fun a => a.id)).Nodup) ∧
    (∀ id : String,
        ((s.deleteActivity id).getActivities.map (fun a => a.id)).Nodup) ∧
    (∀ id : String,
        ((s.deleteAction id).1.getActions.1.map (fun a => a.id)).Nodup) ∧
    (∀ (id : String) (pch : ActivityPatch),
        ((s.updateActivity id pch).1.getActivities.map (fun a => a.id)).Nodup) ∧
    (∀ (id : String) (pch : ActionPatch), pch.id = none →
        ((s.updateAction id pch).1.getActions.1.map (fun a => a.id)).Nodup) ∧
    ((s.clearAllData.getActivities.map (fun a => a.id)).Nodup) ∧
    (∀ (pa : List Activity) (pc : List Action),
        (pa.map (fun a => a.id)).Nodup → (pc.map (fun a => a.id)).Nodup →
        ((s.importData (some ⟨some pa, some pc⟩) false).1.getActivities.map
            (fun a => a.id)).Nodup ∧
        ((s.importData (some ⟨some pa, some pc⟩) false).1.getActions.1.map
            (fun a => a.id)).Nodup) := by
  refine ⟨?_, ?_, ?_, ?_, ?_, ?_, ?_, ?_⟩
  · intro draft now hfresh
    exact nodup_map_concat _ _ _ hA hfresh
  · intro draft now hfresh
    have ha : ((s.addAction draft now).2).id
        = if draft.id = "" then "action-" ++ toString now else draft.id := by
      by_cases hd : draft.id = "" <;>
        simp [SyncStore.addAction, hd]
    have : (s.addAction draft now).1.getActions.1
        = s.getActions.1 ++ [(s.addAction draft now).2] := rfl
    rw [this]
    refine nodup_map_concat _ _ _ hC ?_
    rw [ha]
    exact hfresh
  · intro id
    exact nodup_map_filter _ _ _ hA
  · intro id
    simp only [SyncStore.deleteAction]
    by_cases hb : (s.getActivities.any
        fun a => a.actionId = some id || a.type = some id) = true
    · rw [if_pos hb]
      exact hC
    · rw [if_neg hb]
      exact nodup_map_filter _ _ _ hC
  · intro id pch
    unfold SyncStore.updateActivity
    cases hu : SyncStore.updateFirstActivity id pch s.getActivities with
    | none => exact hA
    | some x =>
        obtain ⟨l, m⟩ := x
        have hl := updateFirstActivity_ids id pch s.getActivities l m hu
        show ((s.saveActivities l).getActivities.map (fun a => a.id)).Nodup
        rw [show (s.saveActivities l).getActivities = l from rfl, hl]
        exact hA
  · intro id pch hpid
    simp only [SyncStore.updateAction]
    cases hu : SyncStore.updateFirstAction id pch s.getActions.1 with
    | none =>
        show ((s.getActions.2).getActions.1.map (fun a => a.id)).Nodup
        rw [getActions_idem]
        exact hC
    | some x =>
        obtain ⟨l, m⟩ := x
        have hl := updateFirstAction_ids id pch hpid s.getActions.1 l m hu
        show (((s.getActions.2).saveActions l).getActions.1.map
            (fun a => a.id)).Nodup
        rw [show ((s.getActions.2).saveActions l).getActions.1 = l from rfl, hl]
        exact hC
  · simp [SyncStore.clearAllData, SyncStore.getActivities]
  · intro pa pc hpa hpc
    rw [importData_merge_eq s pa pc]
    constructor
    · show ((s.getActivities
          ++ pa.filter (fun a => ¬ a.id ∈ s.getActivities.map (fun b => b.id))).map
            (fun a => a.id)).Nodup
      rw [List.map_append, List.nodup_append]
      refine ⟨hA, nodup_map_filter _ _ _ hpa, ?_⟩
      intro x hx₁ hx₂
      obtain ⟨b, hb, rfl⟩ := List.mem_map.mp hx₂
      have := (List.mem_filter.mp hb).2
      simp only [decide_eq_true_eq] at this
      exact this hx₁
    · show ((s.getActions.1
          ++ pc.filter (fun a => ¬ a.id ∈ s.getActions.1.map (fun b => b.id))).map
            (fun a => a.id)).Nodup
      rw [List.map_append, List.nodup_append]
      refine ⟨hC, nodup_map_filter _ _ _ hpc, ?_⟩
      intro x hx₁ hx₂
      obtain ⟨b, hb, rfl⟩ := List.mem_map.mp hx₂
      have := (List.mem_filter.mp hb).2
      simp only [decide_eq_true_eq] at this
      exact this hx₁

/-- Witness for C9: adding an activity at clock 7 to the empty store keeps
the ids distinct. -/
theorem uniqueIds_preserved_witness :
    (((SyncStore.mk (some []) (some [])).addActivity { id := "" } 7).1.getActivities.map
        (fun a => a.id)).Nodup :=
  (uniqueIds_preserved (SyncStore.mk (some []) (some []))
    (by decide) (by decide)).1 { id := "" } 7 (by decide)

/-! ## Claim C8: the 30-day count window -/

/-- C8 counterexample: one millisecond past local midnight of day 31 (in an
offset-0 locale), an activity dated exactly 30 days before today (day 1) is
**not** counted — `new Date("day 1")` is one millisecond before
`thirtyDaysAgo` — while one dated 29 days before (day 2) is. -/
theorem counts30_thirty_days_ago_excluded :
    Analytics.getActivityCountsLast30Days
        [{ id := "x", actionId := some "a", date := some 1 }]
        (31 * Analytics.msPerDay + 1) "a" = 0 ∧
    Analytics.getActivityCountsLast30Days
        [{ id := "y", actionId := some "a", date := some 2 }]
        (31 * Analytics.msPerDay + 1) "a" = 1 := by
  exact ⟨by decide, by decide⟩

/-- C8 (amended): at any instant strictly inside the local day `today` (an
offset-0 locale, `now = msPerDay * today + t` with `0 < t < msPerDay`),
`getActivityCountsLast30Days` counts, per key (actionId with legacy `type`
fallback), exactly those activities whose date lies in the inclusive window
`[today - 29, today]` — so an activity dated exactly 30 days before today is
excluded and one dated 29 days before is included; ids with zero matches get
count 0 (no object entry). -/
theorem counts30_window (activities : List Activity) (today t : Int)
    (h0 : 0 < t) (h1 : t < Analytics.msPerDay) (k : String) :
    Analytics.getActivityCountsLast30Days activities
        (Analytics.msPerDay * today + t) k
      = (activities.filter (fun a =>
          decide (Analytics.countsKey a = k) &&
          (match a.date with
           | none => false
           | some d => decide (today - 29 ≤ d) && decide (d ≤ today)))).length := by
  simp only [Analytics.msPerDay] at h1
  unfold Analytics.getActivityCountsLast30Days
  rw [List.filter_filter]
  refine congrArg List.length (List.filter_congr ?_)
  intro a _
  cases hd : a.date with
  | none => simp [Analytics.inLast30Window, hd]
  | some d =>
      rw [Bool.eq_iff_iff]
      simp only [Analytics.inLast30Window, hd, Bool.and_eq_true,
        decide_eq_true_eq, Analytics.msPerDay]
      constructor
      · rintro ⟨hk, hw1, hw2⟩
        exact ⟨hk, by omega, by omega⟩
      · rintro ⟨hk, hw1, hw2⟩
        exact ⟨hk, by omega, by omega⟩

/-- Witness for C8: at one millisecond past midnight of day 31, the dated
activities at days 1 (excluded), 2 and 31 (included) under key "a" count
exactly 2. -/
theorem counts30_window_witness :
    Analytics.getActivityCountsLast30Days
        [{ id := "x", actionId := some "a", date := some 1 },
         { id := "y", actionId := some "a", date := some 2 },
         { id := "z", actionId := some "a", date := some 31 }]
        (Analytics.msPerDay * 31 + 1) "a"
      = ([{ id := "x", actionId := some "a", date := some 1 },
          { id := "y", actionId := some "a", date := some 2 },
          { id := "z", actionId := some "a", date := some 31 }].filter
          (fun a : Activity =>
            decide (Analytics.countsKey a = "a") &&
            (match a.date with
             | none => false
             | some d => decide ((31 : Int) - 29 ≤ d) && decide (d ≤ (31 : Int))))).length :=
  counts30_window _ 31 1 (by decide) (by decide) "a"

/-! ## Claim C10: analytics totality -/

/-- A record carrying both time fields yields an elapsed-ms value. -/
theorem activityWorkMs_isSome (a : Activity)
    (hst : a.startTime.isSome) (hen : a.endTime.isSome) :
    (Analytics.activityWorkMs a).isSome := by
  obtain ⟨sv, hsv⟩ := Option.isSome_iff_exists.mp hst
  obtain ⟨ev, hev⟩ := Option.isSome_iff_exists.mp hen
  simp [Analytics.activityWorkMs, hsv, hev]

/-- The work-hours accumulation succeeds when every record yields a
value. -/
theorem sumWorkMs_isSome (l : List Activity)
    (h : ∀ a ∈ l, (Analytics.activityWorkMs a).isSome) :
    (Analytics.sumWorkMs l).isSome := by
  induction l with
  | nil => simp [Analytics.sumWorkMs]
  | cons a rest ih =>
      obtain ⟨x, hx⟩ := Option.isSome_iff_exists.mp (h a (by simp))
      obtain ⟨y, hy⟩ :=
        Option.isSome_iff_exists.mp (ih fun b hb => h b (by simp [hb]))
      simp [Analytics.sumWorkMs, hx, hy]

/-- C10 counterexample: `calculateAverageWorkHours` **does** fail on a work
activity missing its time fields — `activity.startTime.split(':')` throws a
`TypeError` (here: the embedding returns `none`), refuting "no Analytics
function ever fails, including on records missing startTime/endTime". -/
theorem avgWorkHours_throws_on_missing_times :
    Analytics.calculateAverageWorkHours
        [{ id := "w", actionId := some "work" }] = none ∧
    Analytics.isWorkActivity { id := "w", actionId := some "work" } = true := by
  exact ⟨rfl, rfl⟩

/-- C10 (amended): `calculateActionStreak`, `calculateDaysSinceLastOccurrence`
and `getActivityCountsLast30Days` are total and return zero-valued results
when no matching data exists; `calculateAverageWorkHours` returns 0 when no
activity matches the work filter and succeeds whenever every work activity
carries both time fields — but it throws on a work activity missing
`startTime`/`endTime`, so the claim's "never fails" does not extend to
it. -/
theorem analytics_zero_on_empty (activities : List Activity)
    (today todayMidnight nowMs : Int) (actionId k : String) :
    ((∀ a ∈ activities, Analytics.matchesStreak actionId a = false) →
        Analytics.calculateActionStreak activities today actionId = 0) ∧
    ((∀ a ∈ activities, a.actionId ≠ some actionId) →
        Analytics.calculateDaysSinceLastOccurrence activities todayMidnight
          actionId = 0) ∧
    (Analytics.getActivityCountsLast30Days [] nowMs k = 0) ∧
    (activities.filter Analytics.isWorkActivity = [] →
        Analytics.calculateAverageWorkHours activities = some 0) ∧
    ((∀ a ∈ activities, Analytics.isWorkActivity a = true →
          a.startTime.isSome ∧ a.endTime.isSome) →
        (Analytics.calculateAverageWorkHours activities).isSome) := by
  refine ⟨?_, ?_, rfl, ?_, ?_⟩
  · intro h
    have hmd : Analytics.matchDates activities actionId = [] := by
      unfold Analytics.matchDates
      rw [List.filter_eq_nil_iff.mpr (fun a ha => by simp [h a ha])]
      rfl
    simp [Analytics.calculateActionStreak, Analytics.actionDatesOf, hmd]
  · intro h
    have hrel : activities.filter (fun a => a.actionId = some actionId) = [] :=
      List.filter_eq_nil_iff.mpr (fun a ha => by simpa using h a ha)
    simp [Analytics.calculateDaysSinceLastOccurrence, hrel]
  · intro h
    simp [Analytics.calculateAverageWorkHours, h]
  · intro h
    cases hcase : (activities.filter Analytics.isWorkActivity).isEmpty with
    | true => simp [Analytics.calculateAverageWorkHours, hcase]
    | false =>
        have hs : (Analytics.sumWorkMs
            (activities.filter Analytics.isWorkActivity)).isSome := by
          apply sumWorkMs_isSome
          intro a ha
          obtain ⟨hst, hen⟩ :=
            h a (List.mem_filter.mp ha).1 (List.mem_filter.mp ha).2
          exact activityWorkMs_isSome a hst hen
        obtain ⟨tv, htv⟩ := Option.isSome_iff_exists.mp hs
        simp [Analytics.calculateAverageWorkHours, hcase, htv]

/-- Witness for C10: the zero-on-no-match results and a succeeding average
at a concrete snapshot. -/
theorem analytics_zero_on_empty_witness :
    (Analytics.calculateAverageWorkHours
        [{ id := "w", actionId := some "work",
           startTime := some (9, 0), endTime := some (17, 0) }]).isSome :=
  (analytics_zero_on_empty
      [{ id := "w", actionId := some "work",
         startTime := some (9, 0), endTime := some (17, 0) }]
      0 0 0 "a" "k").2.2.2.2 (by decide)

/-! ## Claim C5: the streak computation -/

/-- The counting loop characterised: on a strictly descending list with head
`m`, `descRun` is positive, every backward step `m, m-1, …` up to its length
is a member, and the next step is not — i.e. it computes exactly the length
of the run of consecutive values downward from `m`. -/
theorem descRun_spec (m : Int) (R : List Int)
    (hp : (m :: R).Pairwise (fun a b => b < a)) :
    0 < Analytics.descRun (m :: R) ∧
    (∀ j : ℕ, j < Analytics.descRun (m :: R) → m - (j : ℤ) ∈ m :: R) ∧
    m - (Analytics.descRun (m :: R) : ℤ) ∉ m :: R := by
  induction R generalizing m with
  | nil =>
      refine ⟨by simp [Analytics.descRun], ?_, ?_⟩
      · intro j hj
        have hj0 : j = 0 := by simp [Analytics.descRun] at hj; omega
        subst hj0
        simp
      · simp only [Analytics.descRun, Nat.cast_one, List.mem_singleton]
        omega
  | cons b R ih =>
      rw [List.pairwise_cons] at hp
      obtain ⟨hm, hpb⟩ := hp
      have hbm : b < m := hm b (List.mem_cons_self b R)
      by_cases hd : m - b = 1
      · have hrun : Analytics.descRun (m :: b :: R)
            = Analytics.descRun (b :: R) + 1 := by
          simp [Analytics.descRun, hd]
        obtain ⟨hpos, hmem, hnot⟩ := ih b hpb
        refine ⟨by omega, ?_, ?_⟩
        · intro j hj
          cases j with
          | zero => simp
          | succ j' =>
              rw [hrun] at hj
              have heq : m - ((j' + 1 : ℕ) : ℤ) = b - (j' : ℤ) := by
                push_cast; omega
              rw [heq]
              exact List.mem_cons_of_mem m (hmem j' (by omega))
        · rw [hrun]
          intro hcon
          have heq : m - ((Analytics.descRun (b :: R) + 1 : ℕ) : ℤ)
              = b - (Analytics.descRun (b :: R) : ℤ) := by
            push_cast; omega
          rw [heq] at hcon
          rcases List.mem_cons.mp hcon with h | h
          · have : (0 : ℤ) < (Analytics.descRun (b :: R) : ℤ) := by
              exact_mod_cast hpos
            omega
          · exact hnot h
      · have hrun : Analytics.descRun (m :: b :: R) = 1 := by
          simp [Analytics.descRun, hd]
        refine ⟨by omega, ?_, ?_⟩
        · intro j hj
          have hj0 : j = 0 := by omega
          subst hj0
          simp
        · rw [hrun]
          intro hcon
          rcases List.mem_cons.mp hcon with h | h
          · omega
          rcases List.mem_cons.mp h with h | h
          · omega
          · have : m - (1 : ℕ) < b := by
              have := (List.pairwise_cons.mp hpb).1 _ h
              exact this
            omega

/-- The sorted distinct date list: same members as the raw matching dates,
sorted and without duplicates. -/
theorem actionDatesOf_facts (activities : List Activity) (actionId : String) :
    (∀ x : Int, x ∈ Analytics.actionDatesOf activities actionId
        ↔ x ∈ Analytics.matchDates activities actionId) ∧
    (Analytics.actionDatesOf activities actionId).Sorted (· ≤ ·) ∧
    (Analytics.actionDatesOf activities actionId).Nodup := by
  refine ⟨?_, List.sorted_insertionSort _ _, ?_⟩
  · intro x
    exact ((List.perm_insertionSort _ _).mem_iff).trans List.mem_dedup
  · exact ((List.perm_insertionSort _ _).nodup_iff).mpr (List.nodup_dedup _)

/-- C5 counterexample: with matching dates {0, 6} and today = 0, the most
recent matching distinct date (6) is neither today (0) nor yesterday (-1),
so the claim demands streak 0 — but because today itself is among the dates
the code skips the recency check and walks backward from the *future* date
6, returning 1. -/
theorem streak_future_date_breaks_claim :
    Analytics.calculateActionStreak
        [{ id := "p", actionId := some "a", date := some 0 },
         { id := "q", actionId := some "a", date := some 6 }] 0 "a" = 1 ∧
    Analytics.actionDatesOf
        [{ id := "p", actionId := some "a", date := some 0 },
         { id := "q", actionId := some "a", date := some 6 }] "a" = [0, 6] ∧
    (6 : Int) ≠ 0 ∧ (6 : Int) ≠ 0 - 1 ∧ (1 : ℕ) ≠ 0 := by
  exact ⟨by decide, by decide, by decide, by decide, by decide⟩

/-- C5 (amended): **provided no matching date lies in the future** (every
matching date ≤ today), `calculateActionStreak` returns 0 when there are no
matching dated activities or when the most recent matching distinct date `m`
is neither today nor yesterday; otherwise it returns exactly the length of
the run of consecutive calendar dates counted backward from `m`: the unique
`r > 0` with `m, m-1, …, m-r+1` all matching dates and `m-r` not.  (In
particular, one matching activity per day on n consecutive dates ending
today yields n, and a gap of ≥ 2 days before today yields 0.)  Without the
proviso the claim fails: a future-dated record can defeat the recency
check. -/
theorem calculateActionStreak_spec (activities : List Activity) (today : Int)
    (actionId : String)
    (hle : ∀ d ∈ Analytics.matchDates activities actionId, d ≤ today) :
    (Analytics.matchDates activities actionId = [] →
        Analytics.calculateActionStreak activities today actionId = 0) ∧
    (∀ m ∈ Analytics.matchDates activities actionId,
      (∀ d ∈ Analytics.matchDates activities actionId, d ≤ m) →
      ((m ≠ today ∧ m ≠ today - 1) →
          Analytics.calculateActionStreak activities today actionId = 0) ∧
      ((m = today ∨ m = today - 1) →
          0 < Analytics.calculateActionStreak activities today actionId ∧
          (∀ j : ℕ,
              j < Analytics.calculateActionStreak activities today actionId →
              m - (j : ℤ) ∈ Analytics.matchDates activities actionId) ∧
          m - (Analytics.calculateActionStreak activities today actionId : ℤ)
              ∉ Analytics.matchDates activities actionId)) := by
  obtain ⟨memS, hsorted, hnodup⟩ := actionDatesOf_facts activities actionId
  constructor
  · intro hmd
    simp [Analytics.calculateActionStreak, Analytics.actionDatesOf, hmd]
  · intro m hm hmax
    have hact_ne : activities.isEmpty = false := by
      cases activities with
      | nil => simp [Analytics.matchDates] at hm
      | cons _ _ => rfl
    have hSne : Analytics.actionDatesOf activities actionId ≠ [] :=
      List.ne_nil_of_mem ((memS m).mpr hm)
    have hS_ne : (Analytics.actionDatesOf activities actionId).isEmpty
        = false := by
      cases hS : Analytics.actionDatesOf activities actionId with
      | nil => exact absurd hS hSne
      | cons _ _ => rfl
    have hRpair : (Analytics.actionDatesOf activities actionId).reverse.Pairwise
        (fun a b => b < a) :=
      List.pairwise_reverse.mpr (hsorted.lt_of_le hnodup)
    cases hR : (Analytics.actionDatesOf activities actionId).reverse with
    | nil => exact absurd (by simpa using congrArg List.reverse hR) hSne
    | cons hd tl =>
        rw [hR] at hRpair
        have hhdS : hd ∈ Analytics.actionDatesOf activities actionId := by
          rw [← List.mem_reverse, hR]
          exact List.mem_cons_self hd tl
        have hdm : hd = m := by
          have h1 : hd ≤ m := hmax hd ((memS hd).mp hhdS)
          have h2 : m ∈ (Analytics.actionDatesOf activities actionId).reverse :=
            List.mem_reverse.mpr ((memS m).mpr hm)
          rw [hR] at h2
          rcases List.mem_cons.mp h2 with h | h
          · exact h.symm
          · have := (List.pairwise_cons.mp hRpair).1 m h
            omega
        rw [hdm] at hR hRpair
        have hlast : (Analytics.actionDatesOf activities actionId).getLast?
            = some m := by
          rw [← List.head?_reverse, hR]
          rfl
        have htod : today ∈ Analytics.actionDatesOf activities actionId ↔
            m = today := by
          constructor
          · intro h
            have h1 : today ≤ m := hmax today ((memS today).mp h)
            have h2 : m ≤ today := hle m hm
            omega
          · intro h
            rw [← h] at *
            exact (memS m).mpr hm
        have hred : Analytics.calculateActionStreak activities today actionId
            = if ¬ today ∈ Analytics.actionDatesOf activities actionId ∧
                  (Analytics.actionDatesOf activities actionId).getLast?
                    ≠ some (today - 1)
              then 0
              else Analytics.descRun
                (Analytics.actionDatesOf activities actionId).reverse := by
          simp only [Analytics.calculateActionStreak, hact_ne, hS_ne,
            Bool.false_eq_true, if_false]
        constructor
        · rintro ⟨hn1, hn2⟩
          rw [hred, if_pos]
          refine ⟨fun hc => hn1 (htod.mp hc), ?_⟩
          rw [hlast]
          intro hc
          exact hn2 (by injection hc)
        · intro hor
          have hcond : ¬ (¬ today ∈ Analytics.actionDatesOf activities actionId ∧
              (Analytics.actionDatesOf activities actionId).getLast?
                ≠ some (today - 1)) := by
            rcases hor with h | h
            · intro hc
              exact hc.1 (htod.mpr h)
            · intro hc
              apply hc.2
              rw [hlast, h]
          rw [hred, if_neg hcond, hR]
          obtain ⟨hpos, hmem, hnot⟩ := descRun_spec m tl hRpair
          refine ⟨hpos, ?_, ?_⟩
          · intro j hj
            have := hmem j hj
            rw [← hR] at this
            exact (memS _).mp (List.mem_reverse.mp this)
          · intro hc
            apply hnot
            have hmem' := (memS _).mpr hc
            rw [← List.mem_reverse, hR] at hmem'
            exact hmem'

/-- Witness for C5: one matching activity per day on 1, 2, 3 with today = 3
gives a positive streak (indeed exactly 3). -/
theorem calculateActionStreak_spec_witness :
    0 < Analytics.calculateActionStreak
        [{ id := "p", actionId := some "a", date := some 1 },
         { id := "q", actionId := some "a", date := some 2 },
         { id := "r", actionId := some "a", date := some 3 }] 3 "a" :=
  (((calculateActionStreak_spec
      [{ id := "p", actionId := some "a", date := some 1 },
       { id := "q", actionId := some "a", date := some 2 },
       { id := "r", actionId := some "a", date := some 3 }] 3 "a"
      (by decide)).2 3 (by decide) (by decide)).2 (Or.inl rfl)).1

end Tracker
